import Mathlib

/-!
Formal model of the Orbit Fusion backend raster services
(`backend/services/analysis.py`, `backend/services/gee_fusion_service.py`,
`backend/services/cache_service.py`).

Numpy floating-point values are modelled exactly: a value is either NaN,
an infinity, or an exact rational number.  The arithmetic operations used
by the services (add, sub, div) follow the IEEE-754 special-value rules
(signed zeros and rounding play no role in the properties studied here).
2-D arrays are modelled as functions from pixel indices to values; numpy
broadcasting never occurs in the modelled code paths because every
elementwise operation is applied to same-shape operands.
-/

/-- Model of a numpy float64 cell value: NaN, an infinity, or an exact
rational number. -/
inductive FVal where
  | nan : FVal
  | posinf : FVal
  | neginf : FVal
  | num : ℚ → FVal
deriving DecidableEq

open FVal

/-- IEEE addition on modelled float values. -/
def fadd : FVal → FVal → FVal
  | .nan, _ => .nan
  | _, .nan => .nan
  | .posinf, .neginf => .nan
  | .neginf, .posinf => .nan
  | .posinf, _ => .posinf
  | _, .posinf => .posinf
  | .neginf, _ => .neginf
  | _, .neginf => .neginf
  | .num a, .num b => .num (a + b)

/-- IEEE subtraction on modelled float values. -/
def fsub : FVal → FVal → FVal
  | .nan, _ => .nan
  | _, .nan => .nan
  | .posinf, .posinf => .nan
  | .neginf, .neginf => .nan
  | .posinf, _ => .posinf
  | _, .posinf => .neginf
  | .neginf, _ => .neginf
  | _, .neginf => .posinf
  | .num a, .num b => .num (a - b)

/-- IEEE division on modelled float values (zero is unsigned, matching the
values that actually arise in the modelled code). -/
def fdiv : FVal → FVal → FVal
  | .nan, _ => .nan
  | _, .nan => .nan
  | .posinf, .posinf => .nan
  | .posinf, .neginf => .nan
  | .neginf, .posinf => .nan
  | .neginf, .neginf => .nan
  | .posinf, .num b => if b < 0 then .neginf else .posinf
  | .neginf, .num b => if b < 0 then .posinf else .neginf
  | .num _, .posinf => .num 0
  | .num _, .neginf => .num 0
  | .num a, .num b =>
      if b = 0 then (if a = 0 then .nan else if 0 < a then .posinf else .neginf)
      else .num (a / b)

/-- Model of numpy isnan on a single value. -/
def isnan : FVal → Bool
  | .nan => true
  | _ => false

/-- Model of numpy nan_to_num with nan=0.0, posinf=0.0, neginf=0.0. -/
def nan_to_num0 : FVal → FVal
  | .num q => .num q
  | _ => .num 0

/-- Model of numpy clip to the interval from -1.0 to 1.0. -/
def clip1 : FVal → FVal
  | .nan => .nan
  | .posinf => .num 1
  | .neginf => .num (-1)
  | .num q => .num (max (-1) (min 1 q))

/-- A 2-D raster band: pixel indices to modelled float values.  All
elementwise numpy operations in the modelled code act on same-shape
operands, which the common index domain represents. -/
def GridF := ℕ → ℕ → FVal

/-- Model of AnalysisService.calculate_ndvi on one pixel:
clip(nan_to_num((nir - red) / (nir + red)), -1, 1). -/
def calculate_ndvi_px (nir red : FVal) : FVal :=
  clip1 (nan_to_num0 (fdiv (fsub nir red) (fadd nir red)))

/-- Model of AnalysisService.calculate_ndvi (analysis.py lines 26-47):
elementwise safe NDVI with nan_to_num and clip. -/
def calculate_ndvi (nir red : GridF) : GridF :=
  fun i j => calculate_ndvi_px (nir i j) (red i j)

/-- Model of GEEFusionService.compute_ndvi on one pixel
(gee_fusion_service.py lines 1227-1248):
np.where(denominator != 0, (nir - red) / denominator, 0).
The comparison denominator != 0 is True for NaN and the infinities,
so the zero branch is taken exactly when the sum is the number 0. -/
def compute_ndvi_px (nir red : FVal) : FVal :=
  if fadd nir red = .num 0 then .num 0 else fdiv (fsub nir red) (fadd nir red)

/-- Model of GEEFusionService.compute_ndvi on a (bands, H, W) tensor with
explicit NIR and red band indices. -/
def compute_ndvi (tensor : ℕ → GridF) (nir_idx red_idx : ℕ) : GridF :=
  fun i j => compute_ndvi_px (tensor nir_idx i j) (tensor red_idx i j)

/-- Model of AnalysisService.fuse_gap_fill (analysis.py lines 183-213):
compute both NDVIs, then np.where(not isnan(sentinel_ndvi), sentinel_ndvi,
landsat_ndvi). -/
def fuse_gap_fill (sentinel_nir sentinel_red landsat_nir landsat_red : GridF) : GridF :=
  fun i j =>
    let s := calculate_ndvi sentinel_nir sentinel_red i j
    let l := calculate_ndvi landsat_nir landsat_red i j
    if isnan s then l else s

/-- Clamping a special value (NaN or infinity) through nan_to_num then clip
yields the number 0. -/
lemma clip_nan_to_num_special (v : FVal)
    (h : isnan v = true ∨ v = .posinf ∨ v = .neginf) :
    clip1 (nan_to_num0 v) = .num 0 := by
  have hmax : max (-1 : ℚ) (min 1 0) = 0 := by norm_num
  rcases h with h | h | h
  · cases v <;> simp_all [isnan, nan_to_num0, clip1]
  · subst h; simp [nan_to_num0, clip1, hmax]
  · subst h; simp [nan_to_num0, clip1, hmax]

/-- Clamp-then-clip always produces a rational in the closed interval
from -1 to 1. -/
lemma clip_nan_to_num_bounded (v : FVal) :
    ∃ q : ℚ, clip1 (nan_to_num0 v) = .num q ∧ -1 ≤ q ∧ q ≤ 1 := by
  cases v with
  | nan => exact ⟨0, by norm_num [nan_to_num0, clip1], by norm_num, by norm_num⟩
  | posinf => exact ⟨0, by norm_num [nan_to_num0, clip1], by norm_num, by norm_num⟩
  | neginf => exact ⟨0, by norm_num [nan_to_num0, clip1], by norm_num, by norm_num⟩
  | num q =>
      refine ⟨max (-1) (min 1 q), by simp [nan_to_num0, clip1], le_max_left _ _, ?_⟩
      exact max_le (by norm_num) (min_le_left _ _)

/-- The safe NDVI of analysis.py can never be NaN: nan_to_num maps every
special value to a number before the clip, so the validity check that
fuse_gap_fill performs afterwards always passes. -/
lemma calculate_ndvi_never_nan (nir red : GridF) (i j : ℕ) :
    isnan (calculate_ndvi nir red i j) = false := by
  unfold calculate_ndvi calculate_ndvi_px
  cases fdiv (fsub (nir i j) (red i j)) (fadd (nir i j) (red i j)) <;>
    simp [nan_to_num0, clip1, isnan]

/-- C1: the gap-fill fallback is dead code.  calculate_ndvi never returns
NaN (its nan_to_num runs before fuse_gap_fill evaluates the isnan
validity mask), so at a pixel whose primary observation is entirely
invalid (both Sentinel bands NaN) the fused value is the primary's
zero-substituted index 0 and not the secondary (Landsat) NDVI 3/5 that
the claim promises there; the claimed both-invalid NaN propagation can
never occur either. -/
theorem gap_fill_fallback_dead :
    (∀ (nir red : GridF) (i j : ℕ),
      isnan (calculate_ndvi nir red i j) = false) ∧
    fuse_gap_fill (fun _ _ => .nan) (fun _ _ => .nan)
        (fun _ _ => .num 4) (fun _ _ => .num 1) 0 0 = .num 0 ∧
    calculate_ndvi (fun _ _ => .num 4) (fun _ _ => .num 1) 0 0 = .num (3 / 5) ∧
    (FVal.num 0 : FVal) ≠ .num (3 / 5) := by
  refine ⟨calculate_ndvi_never_nan, ?_, ?_, ?_⟩
  · norm_num [fuse_gap_fill, calculate_ndvi, calculate_ndvi_px, fadd, fsub,
      fdiv, nan_to_num0, clip1, isnan]
  · norm_num [calculate_ndvi, calculate_ndvi_px, fadd, fsub, fdiv,
      nan_to_num0, clip1]
  · simp only [ne_eq, FVal.num.injEq]
    norm_num

/-- Dividing a finite number by the number zero yields a special value
(NaN when the numerator is zero, an infinity otherwise). -/
lemma fdiv_num_zero_special (c : ℚ) :
    isnan (fdiv (.num c) (.num 0)) = true ∨ fdiv (.num c) (.num 0) = .posinf ∨
      fdiv (.num c) (.num 0) = .neginf := by
  by_cases h : c = 0
  · left; simp [fdiv, h, isnan]
  · by_cases h2 : 0 < c
    · right; left; simp [fdiv, h, h2]
    · right; right; simp [fdiv, h, h2]

/-- C2 (amended): calculate_ndvi emits 0 wherever nir + red is the number
0, maps any NaN or infinity arising in the raw ratio to 0, always produces
a rational value in the interval from -1 to 1, and satisfies
ndvi(x, x) = 0 for every nonzero rational x; the GEE compute_ndvi emits 0
exactly where its denominator is the number 0 (it performs no NaN or
infinity clamping and no clipping). -/
theorem ndvi_safe_division_amended :
    (∀ (nir red : GridF) (i j : ℕ) (a b : ℚ),
      nir i j = .num a → red i j = .num b → a + b = 0 →
      calculate_ndvi nir red i j = .num 0) ∧
    (∀ (nir red : GridF) (i j : ℕ),
      (isnan (fdiv (fsub (nir i j) (red i j)) (fadd (nir i j) (red i j))) = true ∨
        fdiv (fsub (nir i j) (red i j)) (fadd (nir i j) (red i j)) = .posinf ∨
        fdiv (fsub (nir i j) (red i j)) (fadd (nir i j) (red i j)) = .neginf) →
      calculate_ndvi nir red i j = .num 0) ∧
    (∀ (nir red : GridF) (i j : ℕ),
      ∃ q : ℚ, calculate_ndvi nir red i j = .num q ∧ -1 ≤ q ∧ q ≤ 1) ∧
    (∀ x : ℚ, x ≠ 0 → ∀ i j : ℕ,
      calculate_ndvi (fun _ _ => .num x) (fun _ _ => .num x) i j = .num 0) ∧
    (∀ (t : ℕ → GridF) (ni ri i j : ℕ),
      fadd (t ni i j) (t ri i j) = .num 0 → compute_ndvi t ni ri i j = .num 0) := by
  refine ⟨?_, ?_, ?_, ?_, ?_⟩
  · intro nir red i j a b ha hb hab
    unfold calculate_ndvi calculate_ndvi_px
    rw [ha, hb]
    have hadd : fadd (.num a) (.num b) = .num 0 := by simp [fadd, hab]
    have hsub : fsub (.num a) (.num b) = .num (a - b) := by simp [fsub]
    rw [hadd, hsub]
    exact clip_nan_to_num_special _ (fdiv_num_zero_special (a - b))
  · intro nir red i j h
    unfold calculate_ndvi calculate_ndvi_px
    exact clip_nan_to_num_special _ h
  · intro nir red i j
    exact clip_nan_to_num_bounded _
  · intro x hx i j
    unfold calculate_ndvi calculate_ndvi_px
    have hsum : x + x ≠ 0 := by intro h; apply hx; linarith
    have hsub : fsub (.num x) (.num x) = .num 0 := by simp [fsub]
    have hadd : fadd (.num x) (.num x) = .num (x + x) := by simp [fadd]
    rw [hsub, hadd]
    have hdiv : fdiv (.num 0) (.num (x + x)) = .num 0 := by simp [fdiv, hsum]
    rw [hdiv]
    norm_num [nan_to_num0, clip1]
  · intro t ni ri i j h
    simp [compute_ndvi, compute_ndvi_px, h]

/-- Witness for C2 (amended) at the concrete input x = 5: nonzero equal
bands produce NDVI exactly 0. -/
theorem ndvi_safe_division_witness :
    (5 : ℚ) ≠ 0 ∧
    calculate_ndvi (fun _ _ => .num 5) (fun _ _ => .num 5) 0 0 = .num 0 :=
  ⟨by norm_num, ndvi_safe_division_amended.2.2.2.1 5 (by norm_num) 0 0⟩

/-- Example tensor for the C2 counterexample: band 6 (NIR) is constantly
3, every other band (in particular band 2, red) is constantly -1. -/
def exTensor : ℕ → GridF := fun b _ _ => if b = 6 then .num 3 else .num (-1)

/-- C2 counterexample: the GEE compute_ndvi produces 2 on a pixel with
NIR 3 and red -1 (denominator 2), which lies outside the claimed interval
from -1 to 1 — it applies no clipping. -/
theorem compute_ndvi_exceeds_range :
    compute_ndvi exTensor 6 2 0 0 = .num 2 ∧ ¬ ((-1 : ℚ) ≤ 2 ∧ (2 : ℚ) ≤ 1) := by
  constructor
  · norm_num [compute_ndvi, compute_ndvi_px, exTensor, fadd, fsub, fdiv]
  · norm_num

/-!
Fusion reducers (analysis.py lines 216-281).  The NaN-free reducer code
paths operate on finite numeric arrays; a cell is an exact rational and a
numpy dtype is abstracted to the one bit the modelled code observes:
whether the array is integer-typed (astype to an integer dtype truncates
toward zero) or float-typed (astype is the identity).
-/

/-- Model of a 2-D numpy array for the fusion reducers: a shape, a dtype
flag (true = integer dtype), and the cell values. -/
structure NpArray where
  h : ℕ
  w : ℕ
  isInt : Bool
  px : ℕ → ℕ → ℚ

instance : Inhabited NpArray := ⟨⟨0, 0, false, fun _ _ => 0⟩⟩

/-- Model of numpy astype back to a dtype: integer dtypes truncate toward
zero (floor for nonnegative values, ceiling for negative ones, exactly C
truncation), float dtypes keep the value. -/
def castTo (toInt : Bool) (q : ℚ) : ℚ :=
  if toInt then (if 0 ≤ q then ((⌊q⌋ : ℤ) : ℚ) else ((⌈q⌉ : ℤ) : ℚ)) else q

/-- Shape equality check used by np.stack and the explicit loop in
fuse_best_pixel. -/
def sameShape (a b : NpArray) : Bool := a.h == b.h && a.w == b.w

/-- Errors raised by the reducer code: ValueError when no images are
given, the shape-mismatch ValueError (raised explicitly by
fuse_best_pixel and by np.stack in fuse_mean / fuse_median), and the
unknown-method ValueError of resample_array. -/
inductive PyError where
  | noImages : PyError
  | shapeMismatch : PyError
  | unknownMethod : PyError
deriving DecidableEq

/-- Model of np.median on a 1-D list of values: sort, take the middle
element for odd length, the mean of the two middle elements for even
length. -/
def npMedian (l : List ℚ) : ℚ :=
  let s := List.insertionSort (· ≤ ·) l
  if l.length % 2 = 1 then s.getD (l.length / 2) 0
  else (s.getD (l.length / 2 - 1) 0 + s.getD (l.length / 2) 0) / 2

/-- Model of AnalysisService.fuse_mean (analysis.py lines 269-274):
np.stack (which raises ValueError on mismatched shapes), elementwise
arithmetic mean, astype back to the first image's dtype. -/
def fuse_mean (images : List NpArray) : Except PyError NpArray :=
  match images with
  | [] => .error .noImages
  | g0 :: rest =>
      if (rest.any fun g => !(sameShape g g0)) then .error .shapeMismatch
      else .ok
        { h := g0.h, w := g0.w, isInt := g0.isInt,
          px := fun i j =>
            castTo g0.isInt
              ((((g0 :: rest).map fun g => g.px i j).sum) / ((g0 :: rest).length : ℚ)) }

/-- Model of AnalysisService.fuse_median (analysis.py lines 276-281):
np.stack, elementwise median, astype back to the first image's dtype. -/
def fuse_median (images : List NpArray) : Except PyError NpArray :=
  match images with
  | [] => .error .noImages
  | g0 :: rest =>
      if (rest.any fun g => !(sameShape g g0)) then .error .shapeMismatch
      else .ok
        { h := g0.h, w := g0.w, isInt := g0.isInt,
          px := fun i j =>
            castTo g0.isInt (npMedian ((g0 :: rest).map fun g => g.px i j)) }

/-- First usable observation at a pixel: walk the (mask, image) pairs in
priority order, return the image value of the first pair whose mask is
strictly positive there.  This models the inner loop of fuse_best_pixel
(for k, mask in enumerate(quality_masks): if mask[i, j] > 0: take
images[k][i, j]); pairing masks with images matches the code whenever
at least as many images as masks are supplied, which the claims assume
(per-observation masks). -/
def firstGood : List (NpArray × NpArray) → ℕ → ℕ → Option ℚ
  | [], _, _ => none
  | (m, img) :: rest, i, j =>
      if 0 < m.px i j then some (img.px i j) else firstGood rest i j

/-- Model of AnalysisService.fuse_best_pixel (analysis.py lines 216-267).
An empty list raises; a single image is returned unchanged before any
shape or mask handling; otherwise shapes are checked against the first
image, then: with a non-empty mask list (Python truthiness), each output
cell is the first mask-approved observation, falling back to the
elementwise median, written into an array of the first image's dtype;
without masks (None or an empty list) the result is the elementwise
median astype the first image's dtype. -/
def fuse_best_pixel (images : List NpArray) (quality_masks : Option (List NpArray)) :
    Except PyError NpArray :=
  match images with
  | [] => .error .noImages
  | [g] => .ok g
  | g0 :: g1 :: rest =>
      if ((g1 :: rest).any fun g => !(sameShape g g0)) then .error .shapeMismatch
      else
        match quality_masks with
        | some (m0 :: ms) =>
            if (ms.any fun m => !(sameShape m m0)) then .error .shapeMismatch
            else .ok
              { h := g0.h, w := g0.w, isInt := g0.isInt,
                px := fun i j =>
                  match firstGood ((m0 :: ms).zip (g0 :: g1 :: rest)) i j with
                  | some v => castTo g0.isInt v
                  | none =>
                      castTo g0.isInt
                        (npMedian ((g0 :: g1 :: rest).map fun g => g.px i j)) }
        | _ => .ok
            { h := g0.h, w := g0.w, isInt := g0.isInt,
              px := fun i j =>
                castTo g0.isInt (npMedian ((g0 :: g1 :: rest).map fun g => g.px i j)) }

/-- Characterization of firstGood when some pair is usable: if entry k is
the first whose mask is strictly positive at the pixel, the walk returns
that entry's image value. -/
lemma firstGood_eq_found (i j : ℕ) :
    ∀ (ps : List (NpArray × NpArray)) (k : ℕ), k < ps.length →
      0 < (ps.getD k default).1.px i j →
      (∀ k' < k, ¬ 0 < (ps.getD k' default).1.px i j) →
      firstGood ps i j = some ((ps.getD k default).2.px i j) := by
  intro ps
  induction ps with
  | nil => intro k hk; simp at hk
  | cons p ps ih =>
      intro k hk hmask hfirst
      cases k with
      | zero =>
          simp only [List.getD_cons_zero] at hmask ⊢
          obtain ⟨m, img⟩ := p
          simp only [firstGood]
          simp [hmask]
      | succ k =>
          have h0 : ¬ 0 < ((p :: ps).getD 0 default).1.px i j :=
            hfirst 0 (Nat.succ_pos k)
          simp only [List.getD_cons_zero] at h0
          obtain ⟨m, img⟩ := p
          simp only [List.getD_cons_succ] at hmask ⊢
          simp only [firstGood, if_neg h0]
          apply ih k (Nat.lt_of_succ_lt_succ hk) hmask
          intro k' hk'
          have := hfirst (k' + 1) (Nat.succ_lt_succ hk')
          simpa [List.getD_cons_succ] using this

/-- Characterization of firstGood when no pair is usable at the pixel:
the walk returns none. -/
lemma firstGood_eq_none (i j : ℕ) :
    ∀ ps : List (NpArray × NpArray),
      (∀ k < ps.length, ¬ 0 < (ps.getD k default).1.px i j) →
      firstGood ps i j = none := by
  intro ps
  induction ps with
  | nil => intro; rfl
  | cons p ps ih =>
      intro h
      have h0 := h 0 (by simp)
      simp only [List.getD_cons_zero] at h0
      obtain ⟨m, img⟩ := p
      simp only [firstGood, if_neg h0]
      apply ih
      intro k hk
      have := h (k + 1) (by simpa using Nat.succ_lt_succ hk)
      simpa [List.getD_cons_succ] using this

/-- Indexing a zipped list is pairwise indexing of the halves. -/
lemma zip_getD :
    ∀ (xs ys : List NpArray) (k : ℕ), k < xs.length → k < ys.length →
      (xs.zip ys).getD k default = (xs.getD k default, ys.getD k default) := by
  intro xs
  induction xs with
  | nil => intro ys k hk; simp at hk
  | cons x xs ih =>
      intro ys k hkx hky
      cases ys with
      | nil => simp at hky
      | cons y ys =>
          cases k with
          | zero => simp [List.zip_cons_cons, List.getD_cons_zero]
          | succ k =>
              simp only [List.zip_cons_cons, List.getD_cons_succ]
              exact ih ys k (by simpa using hkx) (by simpa using hky)

/-- From any mismatched pair in the stack, some later image mismatches the
first image, so the Bool shape scan fires. -/
lemma any_mismatch_of_pair (g0 : NpArray) (rest : List NpArray)
    (h : ∃ a ∈ g0 :: rest, ∃ b ∈ g0 :: rest, ¬ (a.h = b.h ∧ a.w = b.w)) :
    (rest.any fun g => !(sameShape g g0)) = true := by
  obtain ⟨a, ha, b, hb, hab⟩ := h
  rw [List.any_eq_true]
  by_cases hag : a.h = g0.h ∧ a.w = g0.w
  · have hbg : ¬ (b.h = g0.h ∧ b.w = g0.w) := by
      rintro ⟨h1, h2⟩
      exact hab ⟨hag.1.trans h1.symm, hag.2.trans h2.symm⟩
    have hbr : b ∈ rest := by
      rcases List.mem_cons.mp hb with rfl | hb'
      · exact absurd ⟨rfl, rfl⟩ hbg
      · exact hb'
    refine ⟨b, hbr, ?_⟩
    simp only [sameShape, Bool.not_eq_true']
    rw [Bool.and_eq_false_iff]
    rcases not_and_or.mp hbg with h1 | h2
    · left; exact beq_eq_false_iff_ne.mpr h1
    · right; exact beq_eq_false_iff_ne.mpr h2
  · have har : a ∈ rest := by
      rcases List.mem_cons.mp ha with rfl | ha'
      · exact absurd ⟨rfl, rfl⟩ hag
      · exact ha'
    refine ⟨a, har, ?_⟩
    simp only [sameShape, Bool.not_eq_true']
    rw [Bool.and_eq_false_iff]
    rcases not_and_or.mp hag with h1 | h2
    · left; exact beq_eq_false_iff_ne.mpr h1
    · right; exact beq_eq_false_iff_ne.mpr h2

/-- C6: whenever the input stack contains two grids of differing shapes,
fuse_mean, fuse_median and fuse_best_pixel all fail with the
shape-mismatch error and return no composite (no silent coercion or
broadcast). -/
theorem fuse_shape_mismatch_fails (images : List NpArray)
    (masks : Option (List NpArray))
    (h : ∃ a ∈ images, ∃ b ∈ images, ¬ (a.h = b.h ∧ a.w = b.w)) :
    fuse_mean images = .error .shapeMismatch ∧
    fuse_median images = .error .shapeMismatch ∧
    fuse_best_pixel images masks = .error .shapeMismatch := by
  match images with
  | [] =>
      obtain ⟨a, ha, _⟩ := h
      simp at ha
  | [g] =>
      obtain ⟨a, ha, b, hb, hab⟩ := h
      simp at ha hb
      subst ha; subst hb
      exact absurd ⟨rfl, rfl⟩ hab
  | g0 :: g1 :: rest =>
      have hany := any_mismatch_of_pair g0 (g1 :: rest) h
      refine ⟨?_, ?_, ?_⟩
      · simp [fuse_mean, hany]
      · simp [fuse_median, hany]
      · simp [fuse_best_pixel, hany]

/-- Concrete 1 x 1 constant integer-typed grid used in witnesses and
counterexamples. -/
def constInt (v : ℚ) : NpArray := ⟨1, 1, true, fun _ _ => v⟩

/-- Concrete 1 x 2 constant float-typed grid used in the shape-mismatch
witness. -/
def wideArr : NpArray := ⟨1, 2, false, fun _ _ => 0⟩

/-- Witness for C6 on a concrete mismatched stack (a 1 x 1 grid next to a
1 x 2 grid): all three reducers fail with the shape-mismatch error. -/
theorem fuse_shape_mismatch_witness :
    fuse_mean [constInt 0, wideArr] = .error .shapeMismatch ∧
    fuse_median [constInt 0, wideArr] = .error .shapeMismatch ∧
    fuse_best_pixel [constInt 0, wideArr] none = .error .shapeMismatch :=
  fuse_shape_mismatch_fails [constInt 0, wideArr] none
    ⟨constInt 0, by simp, wideArr, by simp,
      by simp [constInt, wideArr]⟩

/-- C10: fuse_mean and fuse_median write their elementwise result back in
the dtype of the first input grid; on the integer-typed constant stacks
10 and 15 both return 12, while the exact arithmetic mean (and median)
of the stack is 25/2 = 12.5. -/
theorem fuse_mean_median_int_truncation :
    (∃ r, fuse_mean [constInt 10, constInt 15] = .ok r ∧
      r.isInt = true ∧ r.px 0 0 = 12) ∧
    (∃ r, fuse_median [constInt 10, constInt 15] = .ok r ∧
      r.isInt = true ∧ r.px 0 0 = 12) ∧
    ((10 : ℚ) + 15) / 2 = 25 / 2 ∧ npMedian [10, 15] = 25 / 2 ∧
    (12 : ℚ) ≠ 25 / 2 := by
  have hmed : npMedian [10, 15] = 25 / 2 := by
    norm_num [npMedian, List.insertionSort, List.orderedInsert, List.getD]
  refine ⟨⟨_, rfl, rfl, ?_⟩, ⟨_, rfl, rfl, ?_⟩, by norm_num, hmed, by norm_num⟩
  · show castTo (constInt 10).isInt
        ((List.map (fun g => g.px 0 0) [constInt 10, constInt 15]).sum /
          (([constInt 10, constInt 15].length : ℕ) : ℚ)) = 12
    norm_num [constInt, castTo]
  · show castTo (constInt 10).isInt
        (npMedian (List.map (fun g => g.px 0 0) [constInt 10, constInt 15])) = 12
    simp only [constInt, List.map]
    rw [hmed]
    norm_num [castTo]

/-- C3 (amended): fuse_best_pixel returns a single image unchanged; with
per-observation quality masks it selects, at each pixel, the value of the
first observation (in input order) whose mask is strictly positive there,
and at pixels with no usable observation the elementwise median of the
stack, in both cases written back in the first grid's dtype (so truncated
for integer dtypes); without masks it returns the elementwise median of
the stack in the first grid's dtype.  For float-typed grids these values
are exactly the selected value and the exact median. -/
theorem best_pixel_selection_amended :
    (∀ (g : NpArray) (masks : Option (List NpArray)),
      fuse_best_pixel [g] masks = .ok g) ∧
    (∀ (g0 g1 : NpArray) (rest : List NpArray) (m0 : NpArray) (ms : List NpArray),
      (∀ g ∈ g1 :: rest, g.h = g0.h ∧ g.w = g0.w) →
      (∀ m ∈ ms, m.h = m0.h ∧ m.w = m0.w) →
      (m0 :: ms).length = (g0 :: g1 :: rest).length →
      ∃ r, fuse_best_pixel (g0 :: g1 :: rest) (some (m0 :: ms)) = .ok r ∧
        r.h = g0.h ∧ r.w = g0.w ∧ r.isInt = g0.isInt ∧
        ∀ i j : ℕ,
          (∀ k, k < (m0 :: ms).length →
            0 < ((m0 :: ms).getD k default).px i j →
            (∀ k' < k, ¬ 0 < ((m0 :: ms).getD k' default).px i j) →
            r.px i j =
              castTo g0.isInt (((g0 :: g1 :: rest).getD k default).px i j)) ∧
          ((∀ k < (m0 :: ms).length, ¬ 0 < ((m0 :: ms).getD k default).px i j) →
            r.px i j =
              castTo g0.isInt
                (npMedian ((g0 :: g1 :: rest).map fun g => g.px i j)))) ∧
    (∀ (g0 g1 : NpArray) (rest : List NpArray),
      (∀ g ∈ g1 :: rest, g.h = g0.h ∧ g.w = g0.w) →
      ∃ r, fuse_best_pixel (g0 :: g1 :: rest) none = .ok r ∧
        ∀ i j : ℕ,
          r.px i j =
            castTo g0.isInt (npMedian ((g0 :: g1 :: rest).map fun g => g.px i j))) := by
  have hanyOf :
      ∀ (g0 : NpArray) (l : List NpArray), (∀ g ∈ l, g.h = g0.h ∧ g.w = g0.w) →
        (l.any fun g => !(sameShape g g0)) = false := by
    intro g0 l hl
    rw [List.any_eq_false]
    intro g hg
    have := hl g hg
    simp [sameShape, this.1, this.2]
  refine ⟨?_, ?_, ?_⟩
  · intro g masks; rfl
  · intro g0 g1 rest m0 ms himgs hmasks hlen
    have h1 := hanyOf g0 (g1 :: rest) himgs
    have h2 := hanyOf m0 ms hmasks
    have hmain : fuse_best_pixel (g0 :: g1 :: rest) (some (m0 :: ms)) =
        .ok { h := g0.h, w := g0.w, isInt := g0.isInt,
              px := fun i j =>
                match firstGood ((m0 :: ms).zip (g0 :: g1 :: rest)) i j with
                | some v => castTo g0.isInt v
                | none =>
                    castTo g0.isInt
                      (npMedian ((g0 :: g1 :: rest).map fun g => g.px i j)) } := by
      simp [fuse_best_pixel, h1, h2]
    refine ⟨_, hmain, rfl, rfl, rfl, ?_⟩
    intro i j
    have hlenzip :
        ((m0 :: ms).zip (g0 :: g1 :: rest)).length = (m0 :: ms).length := by
      rw [List.length_zip, hlen, Nat.min_self]
    constructor
    · intro k hk hmk hfirst
      have hkimg : k < (g0 :: g1 :: rest).length := hlen ▸ hk
      have hz : ∀ k', k' < (m0 :: ms).length →
          ((m0 :: ms).zip (g0 :: g1 :: rest)).getD k' default =
            ((m0 :: ms).getD k' default, (g0 :: g1 :: rest).getD k' default) := by
        intro k' hk'
        exact zip_getD _ _ k' hk' (hlen ▸ hk')
      have hfg :
          firstGood ((m0 :: ms).zip (g0 :: g1 :: rest)) i j =
            some ((((m0 :: ms).zip (g0 :: g1 :: rest)).getD k default).2.px i j) := by
        apply firstGood_eq_found i j _ k (hlenzip ▸ hk)
        · rw [hz k hk]; exact hmk
        · intro k' hk'
          rw [hz k' (lt_trans hk' hk)]
          exact hfirst k' hk'
      show (match firstGood ((m0 :: ms).zip (g0 :: g1 :: rest)) i j with
        | some v => castTo g0.isInt v
        | none => castTo g0.isInt
            (npMedian ((g0 :: g1 :: rest).map fun g => g.px i j))) =
        castTo g0.isInt (((g0 :: g1 :: rest).getD k default).px i j)
      rw [hfg, hz k hk]
    · intro hnone
      have hfg : firstGood ((m0 :: ms).zip (g0 :: g1 :: rest)) i j = none := by
        apply firstGood_eq_none
        intro k hk
        have hk' : k < (m0 :: ms).length := hlenzip ▸ hk
        rw [zip_getD _ _ k hk' (hlen ▸ hk')]
        exact hnone k hk'
      show (match firstGood ((m0 :: ms).zip (g0 :: g1 :: rest)) i j with
        | some v => castTo g0.isInt v
        | none => castTo g0.isInt
            (npMedian ((g0 :: g1 :: rest).map fun g => g.px i j))) =
        castTo g0.isInt (npMedian ((g0 :: g1 :: rest).map fun g => g.px i j))
      rw [hfg]
  · intro g0 g1 rest himgs
    have h1 := hanyOf g0 (g1 :: rest) himgs
    have hmain : fuse_best_pixel (g0 :: g1 :: rest) none =
        .ok { h := g0.h, w := g0.w, isInt := g0.isInt,
              px := fun i j =>
                castTo g0.isInt
                  (npMedian ((g0 :: g1 :: rest).map fun g => g.px i j)) } := by
      simp [fuse_best_pixel, h1]
    exact ⟨_, hmain, fun i j => rfl⟩

/-- Concrete 1 x 1 float-typed grids and masks for the best-pixel witness
and counterexample. -/
def fA : NpArray := ⟨1, 1, false, fun _ _ => 10⟩

/-- Second concrete float grid, constant 15. -/
def fB : NpArray := ⟨1, 1, false, fun _ _ => 15⟩

/-- An everywhere-unusable quality mask (all zeros). -/
def mOff : NpArray := ⟨1, 1, false, fun _ _ => 0⟩

/-- An everywhere-usable quality mask (all ones). -/
def mOn : NpArray := ⟨1, 1, false, fun _ _ => 1⟩

/-- Witness for C3 (amended) on a concrete stack: with masks off for the
first observation and on for the second, the fused pixel is the second
observation's value 15. -/
theorem best_pixel_selection_witness :
    ∃ r, fuse_best_pixel [fA, fB] (some [mOff, mOn]) = .ok r ∧ r.px 0 0 = 15 := by
  obtain ⟨r, hok, _, _, _, hpx⟩ :=
    best_pixel_selection_amended.2.1 fA fB [] mOff [mOn]
      (by intro g hg; simp at hg; subst hg; simp [fA, fB])
      (by intro m hm; simp at hm; subst hm; simp [mOff, mOn])
      rfl
  refine ⟨r, hok, ?_⟩
  have hsel := (hpx 0 0).1 1 (by norm_num)
      (by simp [List.getD, mOn])
      (by intro k' hk'
          have hk0 : k' = 0 := by omega
          subst hk0
          simp [List.getD, mOff])
  rw [hsel]
  simp [List.getD, fA, fB, castTo]

/-- C3 counterexample: on the integer-typed constant stack 10 and 15 with
no usable mask anywhere, fuse_best_pixel returns 12 at the pixel, while
the elementwise median of the observations there is 25/2 = 12.5. -/
theorem best_pixel_int_median_truncates :
    (∃ r, fuse_best_pixel [constInt 10, constInt 15] (some [mOff, mOff]) = .ok r ∧
        r.px 0 0 = 12) ∧
    npMedian [10, 15] = 25 / 2 ∧ (12 : ℚ) ≠ 25 / 2 := by
  have hmed : npMedian [10, 15] = 25 / 2 := by
    norm_num [npMedian, List.insertionSort, List.orderedInsert, List.getD]
  refine ⟨⟨_, rfl, ?_⟩, hmed, by norm_num⟩
  show ((match firstGood ([mOff, mOff].zip [constInt 10, constInt 15]) 0 0 with
      | some v => castTo (constInt 10).isInt v
      | none => castTo (constInt 10).isInt
          (npMedian (List.map (fun g => g.px 0 0) [constInt 10, constInt 15]))) : ℚ) =
      (12 : ℚ)
  have hfg : firstGood ([mOff, mOff].zip [constInt 10, constInt 15]) 0 0 = none := by
    simp [List.zip_cons_cons, firstGood, mOff]
  rw [hfg]
  show castTo (constInt 10).isInt
      (npMedian (List.map (fun g => g.px 0 0) [constInt 10, constInt 15])) = 12
  have hmap : List.map (fun g => g.px 0 0) [constInt 10, constInt 15] = [10, 15] := by
    simp [constInt]
  rw [hmap, hmed]
  norm_num [castTo, constInt]

/-!
Resampling (analysis.py lines 99-177 and gee_fusion_service.py
lines 316-357).
-/

/-- Python int() of a float value: truncation toward zero. -/
def intTruncQ (q : ℚ) : ℤ := if 0 ≤ q then ⌊q⌋ else ⌈q⌉

/-- Model of AnalysisService._resample_nearest (analysis.py lines
136-141): source row index (i * h / new_h).astype(int), which for the
nonnegative quantities involved is floor division. -/
def resample_nearest (a : NpArray) (new_h new_w : ℕ) : NpArray :=
  { h := new_h, w := new_w, isInt := a.isInt,
    px := fun i j => a.px (i * a.h / new_h) (j * a.w / new_w) }

/-- Element i of np.linspace(0, len - 1, n): i * (len - 1) / (n - 1) for
n at least 2, and 0 for n at most 1 (numpy returns the start there). -/
def linspaceAt (len n i : ℕ) : ℚ :=
  if n ≤ 1 then 0 else (i : ℚ) * ((len : ℚ) - 1) / ((n : ℚ) - 1)

/-- Model of AnalysisService._resample_bilinear (analysis.py lines
143-168): per output pixel, sample the four neighbours of the linspace
coordinate (int() floors the nonnegative coordinate, the +1 neighbour is
clamped to the last index) and blend with the fractional parts; the
result is written into an array of the source dtype. -/
def resample_bilinear (a : NpArray) (new_h new_w : ℕ) : NpArray :=
  { h := new_h, w := new_w, isInt := a.isInt,
    px := fun i j =>
      let yi := linspaceAt a.h new_h i
      let xi := linspaceAt a.w new_w j
      let y0 := (⌊yi⌋).toNat
      let y1 := min (y0 + 1) (a.h - 1)
      let x0 := (⌊xi⌋).toNat
      let x1 := min (x0 + 1) (a.w - 1)
      let fy := yi - (y0 : ℚ)
      let fx := xi - (x0 : ℚ)
      castTo a.isInt
        (a.px y0 x0 * (1 - fx) * (1 - fy) + a.px y0 x1 * fx * (1 - fy) +
         a.px y1 x0 * (1 - fx) * fy + a.px y1 x1 * fx * fy) }

/-- Model of AnalysisService._resample_bicubic (analysis.py lines
170-177): the code falls back to the bilinear implementation. -/
def resample_bicubic (a : NpArray) (new_h new_w : ℕ) : NpArray :=
  resample_bilinear a new_h new_w

/-- Model of AnalysisService.resample_array (analysis.py lines 99-134):
identity when resolutions agree, otherwise dispatch on the method string
with new dimensions int(shape * scale_factor); unknown methods raise
ValueError. -/
def resample_array (a : NpArray) (source_resolution target_resolution : ℚ)
    (method : String) : Except PyError NpArray :=
  if source_resolution = target_resolution then .ok a
  else
    let scale_factor := source_resolution / target_resolution
    let new_height := (intTruncQ ((a.h : ℚ) * scale_factor)).toNat
    let new_width := (intTruncQ ((a.w : ℚ) * scale_factor)).toNat
    if method = "nearest" then .ok (resample_nearest a new_height new_width)
    else if method = "bilinear" then .ok (resample_bilinear a new_height new_width)
    else if method = "bicubic" then .ok (resample_bicubic a new_height new_width)
    else .error .unknownMethod

/-- Output coordinate i mapped back into the source grid by scipy
ndimage.zoom: endpoints aligned, i * (srcLen - 1) / (dstLen - 1), and 0
when the output axis has at most one sample. -/
def zoomCoord (srcLen dstLen i : ℕ) : ℚ :=
  if dstLen ≤ 1 then 0 else (i : ℚ) * ((srcLen : ℚ) - 1) / ((dstLen : ℚ) - 1)

/-- Model of scipy.ndimage.zoom with order=0 and mode='nearest', from its
documented semantics: nearest-neighbour (order-0 spline) sampling of the
mapped coordinate, rounded and clamped to the valid index range. -/
def ndimage_zoom0 (a : NpArray) (th tw : ℕ) : NpArray :=
  { h := th, w := tw, isInt := a.isInt,
    px := fun i j =>
      a.px (min ((⌊zoomCoord a.h th i + 1/2⌋).toNat) (a.h - 1))
           (min ((⌊zoomCoord a.w tw j + 1/2⌋).toNat) (a.w - 1)) }

/-- Model of scipy.ndimage.zoom with order=1 and mode='nearest', from its
documented semantics: bilinear (order-1 spline) blending of the clamped
neighbours of the mapped coordinate, converted back to the source dtype. -/
def ndimage_zoom1 (a : NpArray) (th tw : ℕ) : NpArray :=
  { h := th, w := tw, isInt := a.isInt,
    px := fun i j =>
      let yi := zoomCoord a.h th i
      let xi := zoomCoord a.w tw j
      let y0 := (⌊yi⌋).toNat
      let y1 := min (y0 + 1) (a.h - 1)
      let x0 := (⌊xi⌋).toNat
      let x1 := min (x0 + 1) (a.w - 1)
      let fy := yi - (y0 : ℚ)
      let fx := xi - (x0 : ℚ)
      castTo a.isInt
        (a.px y0 x0 * (1 - fx) * (1 - fy) + a.px y0 x1 * fx * (1 - fy) +
         a.px y1 x0 * (1 - fx) * fy + a.px y1 x1 * fx * fy) }

/-- Model of GEEFusionService.resample_to_target (gee_fusion_service.py
lines 316-357) on a single-band source: no-op when the shape already
matches, otherwise ndimage.zoom with order 1 for 'bilinear' and order 0
for every other method string (the code computes order = 1 if method ==
'bilinear' else 0). -/
def resample_to_target (source : NpArray) (target_shape : ℕ × ℕ)
    (method : String) : NpArray :=
  if source.h = target_shape.1 ∧ source.w = target_shape.2 then source
  else if method = "bilinear" then
    ndimage_zoom1 source target_shape.1 target_shape.2
  else ndimage_zoom0 source target_shape.1 target_shape.2

/-- C9: resample_array with method 'bicubic' returns exactly the same
result as resample_array with method 'bilinear' on every input — the
bicubic kernel falls back to the bilinear implementation. -/
theorem bicubic_equals_bilinear (a : NpArray) (sr tr : ℚ) :
    resample_array a sr tr "bicubic" = resample_array a sr tr "bilinear" := by
  unfold resample_array resample_bicubic
  by_cases h : sr = tr
  · simp [h]
  · simp [h]

/-- C8: for a non-empty source grid, every in-bounds output pixel of
nearest-neighbour resampling — both AnalysisService._resample_nearest and
GEEFusionService.resample_to_target with method 'nearest' — equals the
source value at some in-bounds source index (order-0 interpolation
introduces no new values and computes only in-bounds source indices). -/
theorem resample_nearest_preserves_values (a : NpArray)
    (hh : 0 < a.h) (hw : 0 < a.w) :
    (∀ nh nw i j : ℕ, i < nh → j < nw →
      ∃ si sj, si < a.h ∧ sj < a.w ∧
        (resample_nearest a nh nw).px i j = a.px si sj) ∧
    (∀ th tw i j : ℕ, i < th → j < tw →
      ∃ si sj, si < a.h ∧ sj < a.w ∧
        (resample_to_target a (th, tw) "nearest").px i j = a.px si sj) := by
  constructor
  · intro nh nw i j hi hj
    refine ⟨i * a.h / nh, j * a.w / nw, ?_, ?_, rfl⟩
    · exact Nat.div_lt_of_lt_mul (Nat.mul_lt_mul_of_lt_of_le hi le_rfl hh)
    · exact Nat.div_lt_of_lt_mul (Nat.mul_lt_mul_of_lt_of_le hj le_rfl hw)
  · intro th tw i j hi hj
    unfold resample_to_target
    by_cases hsh : a.h = (th, tw).1 ∧ a.w = (th, tw).2
    · rw [if_pos hsh]
      exact ⟨i, j, hsh.1 ▸ hi, hsh.2 ▸ hj, rfl⟩
    · rw [if_neg hsh, if_neg (by decide : ¬("nearest" : String) = "bilinear")]
      refine ⟨min ((⌊zoomCoord a.h th i + 1/2⌋).toNat) (a.h - 1),
              min ((⌊zoomCoord a.w tw j + 1/2⌋).toNat) (a.w - 1), ?_, ?_, rfl⟩
      · exact Nat.lt_of_le_of_lt (Nat.min_le_right _ _) (Nat.sub_lt hh Nat.one_pos)
      · exact Nat.lt_of_le_of_lt (Nat.min_le_right _ _) (Nat.sub_lt hw Nat.one_pos)

/-- Witness for C8 on a concrete 1 x 1 source grid upscaled to 2 x 2 by
_resample_nearest: the output pixel comes from an in-bounds source
pixel. -/
theorem resample_nearest_preserves_witness :
    ∃ si sj, si < (constInt 7).h ∧ sj < (constInt 7).w ∧
      (resample_nearest (constInt 7) 2 2).px 0 0 = (constInt 7).px si sj :=
  (resample_nearest_preserves_values (constInt 7)
      (by norm_num [constInt]) (by norm_num [constInt])).1
    2 2 0 0 (by norm_num) (by norm_num)

/-!
Geographic window computation (gee_fusion_service.py lines 277-314).
The function body raises nothing; the Except wrapper records the Python
possibility of raising, which this function never exercises.
-/

/-- Error the specification assigns to malformed coordinates. -/
inductive GeoError where
  | invalidCoordinate : GeoError
deriving DecidableEq

/-- Model of GEEFusionService.create_geo_window: extent_meters =
window_size * SENTINEL_RESOLUTION (10), meters per degree latitude
111320, meters per degree longitude 111320 * cos(radians(lat)), bounds
(west, south, east, north) spread half the extent in each direction.
The code contains no coordinate validation and no raise statement. -/
noncomputable def create_geo_window (center_lon center_lat : ℝ)
    (window_size : ℕ) : Except GeoError (ℝ × ℝ × ℝ × ℝ) :=
  let extent_meters : ℝ := window_size * 10
  let meters_per_deg_lat : ℝ := 111320
  let meters_per_deg_lon : ℝ := 111320 * Real.cos (center_lat * Real.pi / 180)
  let half_extent_lat := (extent_meters / 2) / meters_per_deg_lat
  let half_extent_lon := (extent_meters / 2) / meters_per_deg_lon
  .ok (center_lon - half_extent_lon, center_lat - half_extent_lat,
       center_lon + half_extent_lon, center_lat + half_extent_lat)

/-- C4: for every center with latitude strictly inside the poles,
create_geo_window returns bounds centered on the point whose latitude
span is window_size * 10 / 111320 degrees and whose longitude span is
window_size * 10 / (111320 * cos(radians(lat))) degrees. -/
theorem window_from_center_spans (lon lat : ℝ) (ws : ℕ)
    (h : |lat| < 90) :
    ∃ west south east north,
      create_geo_window lon lat ws = .ok (west, south, east, north) ∧
      north - south = (ws : ℝ) * 10 / 111320 ∧
      east - west = (ws : ℝ) * 10 / (111320 * Real.cos (lat * Real.pi / 180)) ∧
      west + east = 2 * lon ∧ south + north = 2 * lat := by
  refine ⟨_, _, _, _, rfl, ?_, ?_, ?_, ?_⟩
  · ring
  · ring
  · ring
  · ring

/-- Witness for C4 at the Scenario A center (77.209, 28.6139 replaced by
latitude 0 to keep the trigonometry closed-form) with window 256: the
spans follow the stated formulas. -/
theorem window_from_center_spans_witness :
    |(0 : ℝ)| < 90 ∧
    ∃ west south east north,
      create_geo_window 77.209 0 256 = .ok (west, south, east, north) ∧
      north - south = ((256 : ℕ) : ℝ) * 10 / 111320 ∧
      east - west =
        ((256 : ℕ) : ℝ) * 10 / (111320 * Real.cos (0 * Real.pi / 180)) ∧
      west + east = 2 * 77.209 ∧ south + north = 2 * 0 :=
  ⟨by norm_num, window_from_center_spans 77.209 0 256 (by norm_num)⟩

/-- C5 counterexample: at latitude 100 (outside the valid range) the
function still returns a window; it does not fail with the
invalid-coordinate error. -/
theorem create_geo_window_accepts_lat_100 :
    create_geo_window 0 100 256 ≠ .error .invalidCoordinate := by
  simp [create_geo_window]

/-- C5 (amended): create_geo_window performs no coordinate validation at
all — it returns a window for every center, including |lat| > 90 and
|lon| > 180. -/
theorem create_geo_window_always_returns (lon lat : ℝ) (ws : ℕ) :
    ∃ wnd, create_geo_window lon lat ws = .ok wnd :=
  ⟨_, rfl⟩

/-!
Tiered cache cleanup (cache_service.py lines 209-255).  The cache state
is the in-memory metadata index (a keyed list of entries with an optional
recorded timestamp; none models a missing or unparseable timestamp, which
the code skips) and the on-disk derivative files, one optional file size
per key for each of the three directories.  Timestamps are integers on an
absolute time axis; cleanup receives the current time and the maximum age
and removes entries recorded strictly before now minus max age.
-/

/-- On-disk derivative files: for each directory (full, thumb, preview),
the size of the stored file per cache key, when the file exists. -/
structure CacheFS where
  fullSize : ℕ → Option ℕ
  thumbSize : ℕ → Option ℕ
  previewSize : ℕ → Option ℕ

/-- The cache service state touched by cleanup_old_cache: metadata index
plus derivative files. -/
structure CacheState where
  metadata : List (ℕ × Option ℤ)
  fs : CacheFS

/-- Statistics dictionary returned by cleanup_old_cache: items_removed
and space_freed_mb = space_freed / (1024 * 1024). -/
structure CleanupStats where
  items_removed : ℕ
  space_freed_mb : ℚ

/-- An entry is selected for removal when its recorded timestamp parses
and is strictly before the cutoff. -/
def entryOld (cutoff : ℤ) : ℕ × Option ℤ → Bool
  | (_, some t) => decide (t < cutoff)
  | (_, none) => false

/-- Total size of the derivative files that exist for a key (missing
files contribute nothing, as the code only counts existing files). -/
def filesSizeAt (fs : CacheFS) (k : ℕ) : ℕ :=
  (fs.fullSize k).getD 0 + (fs.thumbSize k).getD 0 + (fs.previewSize k).getD 0

/-- Deleting the files of the removed keys from one directory. -/
def removeKeys (f : ℕ → Option ℕ) (keys : List ℕ) : ℕ → Option ℕ :=
  fun k => if k ∈ keys then none else f k

/-- Keys collected for removal by cleanup_old_cache: those whose entry is
older than the cutoff. -/
def keys_to_remove (s : CacheState) (cutoff : ℤ) : List ℕ :=
  (s.metadata.filter (entryOld cutoff)).map Prod.fst

/-- Model of CacheService.cleanup_old_cache: collect the keys whose
recorded timestamp is strictly before now - max_age, then for each such
key delete the three derivative files (summing the sizes of those that
exist into space_freed) and delete the metadata record, and report
items_removed together with space_freed in megabytes. -/
def cleanup_old_cache (s : CacheState) (now max_age : ℤ) :
    CacheState × CleanupStats :=
  let cutoff := now - max_age
  let keys := keys_to_remove s cutoff
  let space_freed := (keys.map (filesSizeAt s.fs)).sum
  ({ metadata := s.metadata.filter fun kv => !(decide (kv.1 ∈ keys)),
     fs := { fullSize := removeKeys s.fs.fullSize keys,
             thumbSize := removeKeys s.fs.thumbSize keys,
             previewSize := removeKeys s.fs.previewSize keys } },
   { items_removed := keys.length,
     space_freed_mb := (space_freed : ℚ) / (1024 * 1024) })

/-- In a metadata index with pairwise distinct keys, a key determines its
timestamp. -/
lemma key_unique {l : List (ℕ × Option ℤ)} (hnd : (l.map Prod.fst).Nodup)
    {k : ℕ} {a b : Option ℤ} (ha : (k, a) ∈ l) (hb : (k, b) ∈ l) : a = b := by
  induction l with
  | nil => simp at ha
  | cons p l ih =>
      rw [List.map_cons, List.nodup_cons] at hnd
      rcases List.mem_cons.mp ha with ha0 | ha'
      · rcases List.mem_cons.mp hb with hb0 | hb'
        · have hab : ((k, a) : ℕ × Option ℤ) = (k, b) := by rw [ha0, ← hb0]
          exact (Prod.ext_iff.mp hab).2
        · exfalso
          apply hnd.1
          rw [← ha0]
          exact List.mem_map.mpr ⟨(k, b), hb', rfl⟩
      · rcases List.mem_cons.mp hb with hb0 | hb'
        · exfalso
          apply hnd.1
          rw [← hb0]
          exact List.mem_map.mpr ⟨(k, a), ha', rfl⟩
        · exact ih hnd.2 ha' hb'

/-- A key is collected for removal exactly when its entry's recorded
timestamp is strictly before the cutoff. -/
lemma mem_keys_to_remove (s : CacheState) (cutoff : ℤ) (k : ℕ) :
    k ∈ keys_to_remove s cutoff ↔
      ∃ t, (k, some t) ∈ s.metadata ∧ t < cutoff := by
  constructor
  · intro hk
    rw [keys_to_remove, List.mem_map] at hk
    obtain ⟨kv, hkvf, hfst⟩ := hk
    rw [List.mem_filter] at hkvf
    obtain ⟨hkvmem, hold⟩ := hkvf
    obtain ⟨k', ts⟩ := kv
    cases ts with
    | none => simp [entryOld] at hold
    | some t =>
        simp only [entryOld, decide_eq_true_eq] at hold
        simp only at hfst
        subst hfst
        exact ⟨t, hkvmem, hold⟩
  · rintro ⟨t, hmem', hlt⟩
    rw [keys_to_remove, List.mem_map]
    exact ⟨(k, some t), List.mem_filter.mpr ⟨hmem', by simp [entryOld, hlt]⟩, rfl⟩

/-- C7: cleanup_old_cache removes exactly the entries whose recorded
timestamp is older than the cutoff now - max_age — deleting the metadata
record and all three derivative files of each such entry — leaves every
other entry and its three derivative files unchanged, reports
items_removed equal to the number of entries removed, and reports a freed
total (in megabytes, times 1024 * 1024 to recover bytes) equal to the sum
of the sizes of the files it removed. -/
theorem cleanup_old_cache_spec (s : CacheState) (now max_age : ℤ)
    (hnd : (s.metadata.map Prod.fst).Nodup) :
    (∀ k t, (k, some t) ∈ s.metadata → t < now - max_age →
      (∀ ts, (k, ts) ∉ (cleanup_old_cache s now max_age).1.metadata) ∧
      (cleanup_old_cache s now max_age).1.fs.fullSize k = none ∧
      (cleanup_old_cache s now max_age).1.fs.thumbSize k = none ∧
      (cleanup_old_cache s now max_age).1.fs.previewSize k = none) ∧
    (∀ k ts, (k, ts) ∈ s.metadata → (∀ t, ts = some t → ¬ t < now - max_age) →
      (k, ts) ∈ (cleanup_old_cache s now max_age).1.metadata ∧
      (cleanup_old_cache s now max_age).1.fs.fullSize k = s.fs.fullSize k ∧
      (cleanup_old_cache s now max_age).1.fs.thumbSize k = s.fs.thumbSize k ∧
      (cleanup_old_cache s now max_age).1.fs.previewSize k = s.fs.previewSize k) ∧
    (cleanup_old_cache s now max_age).2.items_removed =
      (s.metadata.filter (entryOld (now - max_age))).length ∧
    (cleanup_old_cache s now max_age).2.space_freed_mb * (1024 * 1024) =
      (((keys_to_remove s (now - max_age)).map (filesSizeAt s.fs)).sum : ℚ) := by
  refine ⟨?_, ?_, ?_, ?_⟩
  · intro k t hmemk hlt
    have hk : k ∈ keys_to_remove s (now - max_age) :=
      (mem_keys_to_remove s (now - max_age) k).mpr ⟨t, hmemk, hlt⟩
    refine ⟨?_, ?_, ?_, ?_⟩
    · intro ts hts
      simp only [cleanup_old_cache, List.mem_filter, Bool.not_eq_eq_eq_not,
        Bool.not_true, decide_eq_false_iff_not] at hts
      exact hts.2 hk
    · simp only [cleanup_old_cache, removeKeys, if_pos hk]
    · simp only [cleanup_old_cache, removeKeys, if_pos hk]
    · simp only [cleanup_old_cache, removeKeys, if_pos hk]
  · intro k ts hmemk hnew
    have hk : k ∉ keys_to_remove s (now - max_age) := by
      intro hk
      obtain ⟨t, hmem', hlt⟩ := (mem_keys_to_remove s (now - max_age) k).mp hk
      have := key_unique hnd hmemk hmem'
      exact hnew t this hlt
    refine ⟨?_, ?_, ?_, ?_⟩
    · simp only [cleanup_old_cache, List.mem_filter]
      exact ⟨hmemk, by simp [hk]⟩
    · simp only [cleanup_old_cache, removeKeys, if_neg hk]
    · simp only [cleanup_old_cache, removeKeys, if_neg hk]
    · simp only [cleanup_old_cache, removeKeys, if_neg hk]
  · simp only [cleanup_old_cache, keys_to_remove, List.length_map]
  · simp only [cleanup_old_cache]
    rw [div_mul_cancel₀]
    norm_num

/-- Concrete file layout for the C7 witness: key 1 has a 10-byte full
image and a 20-byte thumbnail, key 2 has a 7-byte full image. -/
def exFS : CacheFS :=
  ⟨fun k => if k = 1 then some 10 else if k = 2 then some 7 else none,
   fun k => if k = 1 then some 20 else none,
   fun _ => none⟩

/-- Concrete cache state for the C7 witness: entry 1 recorded at time 0,
entry 2 at time 5. -/
def exState : CacheState := ⟨[(1, some 0), (2, some 5)], exFS⟩

/-- Witness for C7 at now = 10, max_age = 7 (cutoff 3): entry 1 (time 0)
is removed together with its derivative files. -/
theorem cleanup_old_cache_witness :
    (∀ ts, (1, ts) ∉ (cleanup_old_cache exState 10 7).1.metadata) ∧
    (cleanup_old_cache exState 10 7).1.fs.fullSize 1 = none ∧
    (cleanup_old_cache exState 10 7).1.fs.thumbSize 1 = none ∧
    (cleanup_old_cache exState 10 7).1.fs.previewSize 1 = none :=
  (cleanup_old_cache_spec exState 10 7 (by decide)).1 1 0
    (by simp [exState]) (by norm_num)
